import Mathlib

/-!
Verification of the walkers coordinate core (`mercator.rs`, `zoom.rs`).

Modelling conventions:
* `f64` values are modelled as real numbers (`ℝ`); the transcendental
  functions (`tan`, `asinh`, `sinh`, `atan`) become their exact real
  counterparts.
* The `f32` arithmetic in `zoom.rs` only ever touches values that are
  exactly representable (integers, halves, and the literals appearing in
  the spec), so it is modelled over `ℚ`, keeping everything decidable.
* Machine integers (`u8`, `u32`) are modelled as `ℕ`; the saturating
  float-to-integer casts of Rust (`as u32`, `as u8`) are modelled
  explicitly by clamping.
-/

namespace Walkers

/-- `TILE_SIZE` from `mercator.rs`: size of the tiles used by services like OSM. -/
def TILE_SIZE : ℕ := 256

/-- `Position` wraps a `geo_types::Point` whose `x` is the longitude and
whose `y` is the latitude (degrees). -/
structure Position where
  lon : ℝ
  lat : ℝ

/-- `Position::from_lat_lon`. -/
def Position.from_lat_lon (lat lon : ℝ) : Position := ⟨lon, lat⟩

/-- `Position::from_lon_lat`. -/
def Position.from_lon_lat (lon lat : ℝ) : Position := ⟨lon, lat⟩

/-- `Pixels` is a `geo_types::Point` of `f64` coordinates. -/
structure Pixels where
  x : ℝ
  y : ℝ

/-- Rust `f64::to_radians`: multiply by `PI / 180`. -/
noncomputable def toRadians (d : ℝ) : ℝ := d * (Real.pi / 180)

/-- Rust `f64::to_degrees`: multiply by `180 / PI`. -/
noncomputable def toDegrees (r : ℝ) : ℝ := r * (180 / Real.pi)

/-- `mercator_normalized` from `mercator.rs`: project into Mercator and
scale both coordinates to the 0-1 range. -/
noncomputable def mercator_normalized (position : Position) : ℝ × ℝ :=
  ((1 + toRadians position.lon / Real.pi) / 2,
   (1 - Real.arsinh (Real.tan (toRadians position.lat)) / Real.pi) / 2)

/-- `Position::project`: scale the normalized coordinates by
`2^zoom * TILE_SIZE`. -/
noncomputable def Position.project (p : Position) (zoom : ℕ) : Pixels :=
  ⟨(mercator_normalized p).1 * ((2 ^ zoom * TILE_SIZE : ℕ) : ℝ),
   (mercator_normalized p).2 * ((2 ^ zoom * TILE_SIZE : ℕ) : ℝ)⟩

/-- Rust's saturating `f64 as u32` cast applied after `.floor()` (the
explicit `floor` makes the truncation of the cast a floor). -/
noncomputable def f64ToU32 (r : ℝ) : ℕ := min (max ⌊r⌋ 0).toNat (2 ^ 32 - 1)

/-- `TileId` from `mercator.rs`: coordinates of an OSM-like tile. -/
structure TileId where
  x : ℕ
  y : ℕ
  zoom : ℕ
  deriving DecidableEq

/-- `Position::tile_id`: the tile-size correction
`((tile_size as f64) / (TILE_SIZE as f64)).log2() as u8` agrees with
`Nat.log2 (tile_size / TILE_SIZE)` on every `u32` input (the truncating
saturating cast sends the negative values arising for
`tile_size < TILE_SIZE` to 0, matching `Nat` division and `Nat.log2 0 = 0`). -/
noncomputable def Position.tile_id (p : Position) (zoom : ℕ) (tile_size : ℕ) : TileId :=
  let corrected := zoom - Nat.log2 (tile_size / TILE_SIZE)
  ⟨f64ToU32 ((mercator_normalized p).1 * ((2 ^ corrected : ℕ) : ℝ)),
   f64ToU32 ((mercator_normalized p).2 * ((2 ^ corrected : ℕ) : ℝ)),
   corrected⟩

/-- `TileId::project`: tile position (in pixels) on the world bitmap. -/
def TileId.project (t : TileId) (tile_size : ℕ) : Pixels :=
  ⟨((t.x * tile_size : ℕ) : ℝ), ((t.y * tile_size : ℕ) : ℝ)⟩

/-- Rust `u32::checked_sub`. -/
def checkedSub (a b : ℕ) : Option ℕ := if a < b then none else some (a - b)

/-- `TileId::east`. -/
def TileId.east (t : TileId) : Option TileId :=
  some ⟨t.x + 1, t.y, t.zoom⟩

/-- `TileId::west`: `x.checked_sub(1)?`. -/
def TileId.west (t : TileId) : Option TileId :=
  (checkedSub t.x 1).map fun x => ⟨x, t.y, t.zoom⟩

/-- `TileId::north`: `y.checked_sub(1)?`. -/
def TileId.north (t : TileId) : Option TileId :=
  (checkedSub t.y 1).map fun y => ⟨t.x, y, t.zoom⟩

/-- `TileId::south`. -/
def TileId.south (t : TileId) : Option TileId :=
  some ⟨t.x, t.y + 1, t.zoom⟩

/-- `screen_to_position` from `mercator.rs`. -/
noncomputable def screen_to_position (pixels : Pixels) (zoom : ℕ) : Position :=
  let number_of_pixels : ℝ := ((2 ^ zoom * TILE_SIZE : ℕ) : ℝ)
  let lon := toDegrees ((pixels.x / number_of_pixels * 2 - 1) * Real.pi)
  let lat := toDegrees (Real.arctan (Real.sinh ((-(pixels.y / number_of_pixels) * 2 + 1) * Real.pi)))
  Position.from_lon_lat lon lat

/-- `position_to_screen` from `mercator.rs` (a verbatim copy of
`screen_to_position` in the source). -/
noncomputable def position_to_screen (pixels : Pixels) (zoom : ℕ) : Position :=
  let number_of_pixels : ℝ := ((2 ^ zoom * TILE_SIZE : ℕ) : ℝ)
  let lon := toDegrees ((pixels.x / number_of_pixels * 2 - 1) * Real.pi)
  let lat := toDegrees (Real.arctan (Real.sinh ((-(pixels.y / number_of_pixels) * 2 + 1) * Real.pi)))
  Position.from_lon_lat lon lat

/-- `InvalidZoom` from `zoom.rs`. -/
inductive InvalidZoom
  | mk
  deriving DecidableEq

/-- `Zoom` from `zoom.rs`: a wrapped `f32`, modelled over `ℚ`. -/
structure Zoom where
  val : ℚ
  deriving DecidableEq

/-- `impl TryFrom<f32> for Zoom`: reject values outside `0. ..=19.`. -/
def Zoom.try_from (value : ℚ) : Except InvalidZoom Zoom :=
  if ¬(0 ≤ value ∧ value ≤ 19) then .error .mk else .ok ⟨value⟩

/-- `impl Default for Zoom`. -/
def Zoom.default : Zoom := ⟨16⟩

/-- `f32::round`: round half away from zero. -/
def f32Round (q : ℚ) : ℤ := if 0 ≤ q then ⌊q + 1 / 2⌋ else -⌊-q + 1 / 2⌋

/-- Rust's saturating `f32 as u8` cast on an already-rounded value. -/
def f32ToU8 (i : ℤ) : ℕ := min (max i 0).toNat 255

/-- `Zoom::round`: `self.0.round() as u8`. -/
def Zoom.round (z : Zoom) : ℕ := f32ToU8 (f32Round z.val)

/-- `Zoom::zoom_in`: `*self = Self::try_from(self.0 + 1.)?`. -/
def Zoom.zoom_in (z : Zoom) : Except InvalidZoom Zoom :=
  Zoom.try_from (z.val + 1)

/-- `Zoom::zoom_out`: `*self = Self::try_from(self.0 - 1.)?`. -/
def Zoom.zoom_out (z : Zoom) : Except InvalidZoom Zoom :=
  Zoom.try_from (z.val - 1)

/-- `Zoom::zoom_by`: assign the new value only when `try_from` succeeds. -/
def Zoom.zoom_by (z : Zoom) (value : ℚ) : Zoom :=
  match Zoom.try_from (z.val + value) with
  | .ok z' => z'
  | .error _ => z

/-- The state of the caller's `Zoom` after `zoom_in` returns: on `Ok` the
assignment happened, on `Err` the `?` operator left `*self` untouched. -/
def Zoom.afterZoomIn (z : Zoom) : Zoom :=
  match z.zoom_in with
  | .ok z' => z'
  | .error _ => z

/-- The state of the caller's `Zoom` after `zoom_out` returns. -/
def Zoom.afterZoomOut (z : Zoom) : Zoom :=
  match z.zoom_out with
  | .ok z' => z'
  | .error _ => z

/-- The observable invariant of `Zoom`: the wrapped value is in `[0, 19]`. -/
def Zoom.Valid (z : Zoom) : Prop := 0 ≤ z.val ∧ z.val ≤ 19

instance (z : Zoom) : Decidable z.Valid := by
  unfold Zoom.Valid
  infer_instance

/-- A successful `try_from` always produces an in-range value. -/
theorem Zoom.try_from_ok_valid {v : ℚ} {z : Zoom} (h : Zoom.try_from v = .ok z) :
    z.Valid := by
  unfold Zoom.try_from at h
  split at h
  · exact absurd h (by simp)
  · next hcond =>
      cases h
      exact not_not.mp hcond

/-- `try_from` fails exactly on out-of-range input. -/
theorem Zoom.try_from_error_iff (v : ℚ) :
    Zoom.try_from v = .error .mk ↔ v < 0 ∨ 19 < v := by
  unfold Zoom.try_from
  by_cases h : 0 ≤ v ∧ v ≤ 19
  · rw [if_neg (not_not_intro h)]
    simp only [reduceCtorEq, false_iff, not_or, not_lt]
    exact ⟨h.1, h.2⟩
  · rw [if_pos h]
    simp only [eq_self_iff_true, true_iff]
    push_neg at h
    by_cases h0 : 0 ≤ v
    · exact Or.inr (h h0)
    · exact Or.inl (lt_of_not_le h0)

/-- C4: every observable `Zoom` value lies in `[0, 19]`: construction is the
only way to create a `Zoom` and rejects out-of-range input, the default is
16, and each of `zoom_in`, `zoom_out`, `zoom_by` either installs a value in
`[0, 19]` or leaves the previous (in-range) value unchanged. -/
theorem zoom_always_valid :
    (∀ (v : ℚ) (z : Zoom), Zoom.try_from v = .ok z → z.Valid) ∧
    Zoom.default.val = 16 ∧ Zoom.default.Valid ∧
    (∀ z : Zoom, z.Valid → z.afterZoomIn.Valid) ∧
    (∀ z : Zoom, z.Valid → z.afterZoomOut.Valid) ∧
    (∀ (z : Zoom) (d : ℚ), z.Valid → (z.zoom_by d).Valid) := by
  refine ⟨fun v z h => Zoom.try_from_ok_valid h, rfl, by decide, ?_, ?_, ?_⟩
  · intro z h
    unfold Zoom.afterZoomIn
    cases hz : z.zoom_in with
    | ok z' => exact Zoom.try_from_ok_valid hz
    | error e => exact h
  · intro z h
    unfold Zoom.afterZoomOut
    cases hz : z.zoom_out with
    | ok z' => exact Zoom.try_from_ok_valid hz
    | error e => exact h
  · intro z d h
    unfold Zoom.zoom_by
    cases hz : Zoom.try_from (z.val + d) with
    | ok z' => exact Zoom.try_from_ok_valid hz
    | error e => exact h

/-- Witness for C4 at concrete inputs. -/
theorem zoom_always_valid_witness :
    Zoom.Valid (Zoom.afterZoomIn ⟨18⟩) ∧ Zoom.Valid (Zoom.zoom_by ⟨19⟩ 1) :=
  ⟨zoom_always_valid.2.2.2.1 ⟨18⟩ (by decide),
   zoom_always_valid.2.2.2.2.2 ⟨19⟩ 1 (by decide)⟩

/-- C5: `Zoom` construction rejects exactly the values outside
`[0.0, 19.0]`: `-0.001` and `19.001` fail with `InvalidZoom`, while `0.0`
and `19.0` succeed. -/
theorem zoom_bounds :
    (∀ v : ℚ, Zoom.try_from v = .error .mk ↔ v < 0 ∨ 19 < v) ∧
    Zoom.try_from (-(1 / 1000)) = .error .mk ∧
    Zoom.try_from (19 + 1 / 1000) = .error .mk ∧
    Zoom.try_from 0 = .ok ⟨0⟩ ∧
    Zoom.try_from 19 = .ok ⟨19⟩ :=
  ⟨Zoom.try_from_error_iff,
   by norm_num [Zoom.try_from],
   by norm_num [Zoom.try_from],
   by norm_num [Zoom.try_from],
   by norm_num [Zoom.try_from]⟩

/-- Witness for C5 applying the general characterisation at 20. -/
theorem zoom_bounds_witness : Zoom.try_from 20 = .error .mk :=
  (zoom_bounds.1 20).mpr (by norm_num)

/-- C6: `zoom_in` attempts `value + 1`; on success it installs it, on
failure it reports `InvalidZoom` and the value is unchanged.  Concretely,
from 18 it succeeds and `round` gives 19, and a further `zoom_in` fails
leaving the value at 19; `zoom_out` is symmetric, failing below 0. -/
theorem zoom_in_boundary :
    (∀ z z' : Zoom, z.zoom_in = .ok z' → z'.val = z.val + 1) ∧
    (∀ z : Zoom, z.zoom_in = .error .mk → z.afterZoomIn = z) ∧
    Zoom.zoom_in ⟨18⟩ = .ok ⟨19⟩ ∧
    Zoom.round ⟨19⟩ = 19 ∧
    Zoom.zoom_in ⟨19⟩ = .error .mk ∧
    Zoom.afterZoomIn ⟨19⟩ = ⟨19⟩ ∧
    Zoom.zoom_out ⟨0⟩ = .error .mk ∧
    Zoom.afterZoomOut ⟨0⟩ = ⟨0⟩ := by
  refine ⟨?_, ?_, by norm_num [Zoom.zoom_in, Zoom.try_from],
    by norm_num [Zoom.round, f32Round, f32ToU8]; decide,
    by norm_num [Zoom.zoom_in, Zoom.try_from],
    by norm_num [Zoom.afterZoomIn, Zoom.zoom_in, Zoom.try_from],
    by norm_num [Zoom.zoom_out, Zoom.try_from],
    by norm_num [Zoom.afterZoomOut, Zoom.zoom_out, Zoom.try_from]⟩
  · intro z z' h
    unfold Zoom.zoom_in Zoom.try_from at h
    split at h
    · exact absurd h (by simp)
    · cases h
      rfl
  · intro z h
    unfold Zoom.afterZoomIn
    rw [h]

/-- Witness for C6 applying the general success clause at 18. -/
theorem zoom_in_boundary_witness : (Zoom.mk 19).val = (Zoom.mk 18).val + 1 :=
  zoom_in_boundary.1 ⟨18⟩ ⟨19⟩ zoom_in_boundary.2.2.1

/-- C7: whenever `value + delta` falls outside `[0, 19]`, `zoom_by`
silently leaves the current value unchanged (no error is reported). -/
theorem zoom_by_silent (z : Zoom) (d : ℚ) (h : z.val + d < 0 ∨ 19 < z.val + d) :
    z.zoom_by d = z := by
  unfold Zoom.zoom_by Zoom.try_from
  have hc : ¬(0 ≤ z.val + d ∧ z.val + d ≤ 19) := by
    rcases h with h | h <;> intro hc <;> rcases hc with ⟨h1, h2⟩ <;> linarith
  simp [hc]

/-- Witness for C7: starting at 19.0, `zoom_by 1.0` leaves the value at 19. -/
theorem zoom_by_silent_witness : Zoom.zoom_by ⟨19⟩ 1 = ⟨19⟩ :=
  zoom_by_silent ⟨19⟩ 1 (by norm_num)

/-- C8: `west`/`north` produce no tile exactly when the respective axis is
0 and otherwise decrement it at the same zoom; `east`/`south` never fail
and increment the respective axis at the same zoom. -/
theorem tile_neighbors (t : TileId) :
    t.west = (if t.x = 0 then none else some ⟨t.x - 1, t.y, t.zoom⟩) ∧
    t.north = (if t.y = 0 then none else some ⟨t.x, t.y - 1, t.zoom⟩) ∧
    t.east = some ⟨t.x + 1, t.y, t.zoom⟩ ∧
    t.south = some ⟨t.x, t.y + 1, t.zoom⟩ := by
  refine ⟨?_, ?_, rfl, rfl⟩
  · by_cases h : t.x = 0 <;>
      simp [TileId.west, checkedSub, h, Nat.lt_one_iff]
  · by_cases h : t.y = 0 <;>
      simp [TileId.north, checkedSub, h, Nat.lt_one_iff]

/-- Witness for C8 at the origin tile. -/
theorem tile_neighbors_witness :
    TileId.west ⟨0, 0, 7⟩ = none ∧ TileId.east ⟨0, 0, 7⟩ = some ⟨1, 0, 7⟩ :=
  ⟨by simpa using (tile_neighbors ⟨0, 0, 7⟩).1,
   by simpa using (tile_neighbors ⟨0, 0, 7⟩).2.2.1⟩

/-- C10: `position_to_screen` returns exactly the same `Position` as
`screen_to_position` on every input: it is a verbatim duplicate of the
inverse projection. -/
theorem position_to_screen_eq_screen_to_position (pixels : Pixels) (zoom : ℕ) :
    position_to_screen pixels zoom = screen_to_position pixels zoom := rfl

/-- `Nat.log2 2 = 1`, by one unfolding of the recursion. -/
theorem nat_log2_two : Nat.log2 2 = 1 := by
  rw [Nat.log2]
  norm_num
  rw [Nat.log2]
  norm_num

/-- `Nat.log2 1 = 0`. -/
theorem nat_log2_one : Nat.log2 1 = 0 := by
  rw [Nat.log2]
  norm_num

/-- C1: for `z ≥ 1`, `tile_id p z 512` equals `tile_id p (z-1) 256` (and its
reported zoom is `z - 1`): doubling the tile size from 256 to 512 is
equivalent to zooming out by one level. -/
theorem tile_id_512_zoom_out (p : Position) (z : ℕ) (_h : 1 ≤ z) :
    p.tile_id z 512 = p.tile_id (z - 1) 256 ∧ (p.tile_id z 512).zoom = z - 1 := by
  have e1 : (512 : ℕ) / TILE_SIZE = 2 := rfl
  have e2 : (256 : ℕ) / TILE_SIZE = 1 := rfl
  unfold Position.tile_id
  rw [e1, e2, nat_log2_two, nat_log2_one, Nat.sub_zero]
  exact ⟨rfl, rfl⟩

/-- helper: exact round trip over the reals. -/
theorem screen_to_position_project (p : Position) (z : ℕ)
    (h1 : -90 < p.lat) (h2 : p.lat < 90) :
    screen_to_position (p.project z) z = p := by
  obtain ⟨lon, lat⟩ := p
  simp only [Position.lat] at h1 h2
  have hpi := Real.pi_pos
  simp only [screen_to_position, Position.project, mercator_normalized, toDegrees, toRadians,
    Position.from_lon_lat, Position.mk.injEq]
  set N := ((2 ^ z * TILE_SIZE : ℕ) : ℝ) with hNdef
  have hN : N ≠ 0 := by
    rw [hNdef]
    exact_mod_cast Nat.mul_ne_zero (pow_ne_zero z two_ne_zero) (by norm_num [TILE_SIZE])
  constructor
  · field_simp
    ring
  · have hlo : -(Real.pi / 2) < lat * (Real.pi / 180) := by nlinarith
    have hhi : lat * (Real.pi / 180) < Real.pi / 2 := by nlinarith
    have key :
        (-((1 - Real.arsinh (Real.tan (lat * (Real.pi / 180))) / Real.pi) / 2 * N / N) * 2 + 1) *
            Real.pi =
          Real.arsinh (Real.tan (lat * (Real.pi / 180))) := by
      field_simp
      ring
    rw [key, Real.sinh_arsinh, Real.arctan_tan hlo hhi]
    field_simp

/-- Witness for C1 at a concrete position and zoom. -/
theorem tile_id_512_zoom_out_witness :
    (Position.from_lon_lat 0 0).tile_id 3 512 = (Position.from_lon_lat 0 0).tile_id 2 256 :=
  (tile_id_512_zoom_out (Position.from_lon_lat 0 0) 3 (by decide)).1

/-- C2: for latitude in (-85, 85) and any zoom in [0, 19], the round trip
`screen_to_position (project p z) z` recovers `p` within relative error 1
in both latitude and longitude (over the real-number embedding the round
trip is in fact exact, so any tolerance holds). -/
theorem project_round_trip (p : Position) (z : ℕ)
    (h1 : -85 < p.lat) (h2 : p.lat < 85) (_hz : z ≤ 19) :
    |(screen_to_position (p.project z) z).lat - p.lat| ≤
        1 * max |(screen_to_position (p.project z) z).lat| |p.lat| ∧
    |(screen_to_position (p.project z) z).lon - p.lon| ≤
        1 * max |(screen_to_position (p.project z) z).lon| |p.lon| := by
  have h := screen_to_position_project p z (by linarith) (by linarith)
  rw [h]
  constructor <;> simp [abs_nonneg]

/-- Witness for C2 at the test position and zoom 16. -/
theorem project_round_trip_witness :
    |(screen_to_position ((Position.from_lat_lon 52.2647 21.00027).project 16) 16).lat -
        (Position.from_lat_lon 52.2647 21.00027).lat| ≤
      1 * max |(screen_to_position ((Position.from_lat_lon 52.2647 21.00027).project 16) 16).lat|
        |(Position.from_lat_lon 52.2647 21.00027).lat| :=
  (project_round_trip (Position.from_lat_lon 52.2647 21.00027) 16
      (by norm_num [Position.from_lat_lon]) (by norm_num [Position.from_lat_lon])
      (by norm_num)).1

/-- helper: if `r < n` then the saturating cast of `floor r` is below `n`. -/
theorem f64ToU32_lt {r : ℝ} {n : ℕ} (hn : 0 < n) (h : r < (n : ℝ)) :
    f64ToU32 r < n := by
  have hm : ⌊r⌋ < (n : ℤ) := by
    rw [Int.floor_lt]
    exact_mod_cast h
  have h32 : (2 ^ 32 - 1 : ℕ) = 4294967295 := by norm_num
  unfold f64ToU32
  rw [h32]
  omega

/-- helper: the saturating cast computes the floor for in-range values. -/
theorem f64ToU32_floor_eq {r : ℝ} {n : ℕ} (h1 : (n : ℝ) ≤ r) (h2 : r < (n : ℝ) + 1)
    (h3 : n < 4294967295) : f64ToU32 r = n := by
  have hm : ⌊r⌋ = (n : ℤ) := by
    rw [Int.floor_eq_iff]
    refine ⟨by exact_mod_cast h1, ?_⟩
    push_cast
    exact h2
  have h32 : (2 ^ 32 - 1 : ℕ) = 4294967295 := by norm_num
  unfold f64ToU32
  rw [hm, h32]
  omega

/-- helper: `exp x` dominates the degree-4 binomial approximation. -/
theorem exp_ge_one_add_quarter_pow {x : ℝ} (hx : 0 ≤ x) :
    (1 + x / 4) ^ 4 ≤ Real.exp x := by
  have h1 : 1 + x / 4 ≤ Real.exp (x / 4) := by
    have := Real.add_one_le_exp (x / 4)
    linarith
  have h0 : (0 : ℝ) ≤ 1 + x / 4 := by linarith
  have h3 : Real.exp (x / 4) ^ 4 = Real.exp x := by
    rw [← Real.exp_nat_mul]
    norm_num
    ring_nf
  calc (1 + x / 4) ^ 4 ≤ Real.exp (x / 4) ^ 4 := pow_le_pow_left₀ h0 h1 4
    _ = Real.exp x := h3

/-- helper: a rational lower bound on `sinh π`. -/
theorem sinh_pi_gt : (11.49 : ℝ) < Real.sinh Real.pi := by
  have he1 : (2.7182818283 : ℝ) < Real.exp 1 := Real.exp_one_gt_d9
  have hpi6 : (3.141592 : ℝ) < Real.pi := Real.pi_gt_d6
  have he3 : (20.0855 : ℝ) < Real.exp 3 := by
    have h3 : Real.exp 3 = Real.exp 1 ^ 3 := by
      rw [← Real.exp_nat_mul]
      norm_num
    have hcube : (2.7182818283 : ℝ) ^ 3 ≤ Real.exp 1 ^ 3 :=
      pow_le_pow_left₀ (by norm_num) he1.le 3
    have : (20.0855 : ℝ) < (2.7182818283 : ℝ) ^ 3 := by norm_num
    linarith [h3.ge]
  have hq : (1.1492888 : ℝ) < Real.exp (Real.pi - 3) := by
    have h4 : (1 + (Real.pi - 3) / 4) ^ 4 ≤ Real.exp (Real.pi - 3) :=
      exp_ge_one_add_quarter_pow (by linarith)
    have h5 : ((1.035398 : ℝ)) ^ 4 ≤ (1 + (Real.pi - 3) / 4) ^ 4 :=
      pow_le_pow_left₀ (by norm_num) (by linarith) 4
    have h6 : (1.1492888 : ℝ) < (1.035398 : ℝ) ^ 4 := by norm_num
    linarith
  have hprod : Real.exp 3 * Real.exp (Real.pi - 3) = Real.exp Real.pi := by
    rw [← Real.exp_add]
    norm_num
  have hpi_exp : (23.084 : ℝ) < Real.exp Real.pi := by
    nlinarith [he3, hq, Real.exp_pos (Real.pi - 3)]
  have hneg : Real.exp (-Real.pi) < 0.05 := by
    rw [Real.exp_neg]
    have hpos := Real.exp_pos Real.pi
    have hmul := mul_inv_cancel₀ (ne_of_gt hpos)
    nlinarith [hmul, hpos, hpi_exp, inv_pos.mpr hpos]
  rw [Real.sinh_eq]
  linarith

/-- helper: `tan 85°` is below `sinh π`. -/
theorem tan_85_deg_lt_sinh_pi : Real.tan (85 * (Real.pi / 180)) < Real.sinh Real.pi := by
  have hpi := Real.pi_pos
  have hpi6 : (3.141592 : ℝ) < Real.pi := Real.pi_gt_d6
  have h36 : Real.pi / 2 - 85 * (Real.pi / 180) = Real.pi / 36 := by ring
  have hcos : Real.cos (85 * (Real.pi / 180)) = Real.sin (Real.pi / 36) := by
    rw [← Real.sin_pi_div_two_sub, h36]
  have hr : (0.0872664 : ℝ) < Real.pi / 36 := by linarith
  have hr2 : Real.pi / 36 ≤ Real.pi / 2 := by linarith
  have hsin_lb : (0.0871 : ℝ) < Real.sin (Real.pi / 36) := by
    have hmono : Real.sin 0.0872664 < Real.sin (Real.pi / 36) :=
      Real.sin_lt_sin_of_lt_of_le_pi_div_two (by linarith) hr2 hr
    have hcube : (0.0872664 : ℝ) - 0.0872664 ^ 3 / 4 < Real.sin 0.0872664 :=
      Real.sin_gt_sub_cube (by norm_num) (by norm_num)
    have hval : (0.0871 : ℝ) < (0.0872664 : ℝ) - 0.0872664 ^ 3 / 4 := by norm_num
    linarith
  have hsin_pos : (0 : ℝ) < Real.sin (Real.pi / 36) := by linarith
  have hcos_pos : (0 : ℝ) < Real.cos (85 * (Real.pi / 180)) := by
    rw [hcos]
    exact hsin_pos
  have htan : Real.tan (85 * (Real.pi / 180)) ≤ 1 / Real.sin (Real.pi / 36) := by
    rw [Real.tan_eq_sin_div_cos, hcos]
    gcongr
    exact Real.sin_le_one _

  have hbound : 1 / Real.sin (Real.pi / 36) < 11.49 := by
    rw [div_lt_iff₀ hsin_pos]
    nlinarith [hsin_lb]
  have := sinh_pi_gt
  linarith

/-- helper: the Mercator y stays in the principal band for |lat| at most 85. -/
theorem abs_arsinh_tan_lt_pi {lat : ℝ} (h1 : -85 ≤ lat) (h2 : lat ≤ 85) :
    |Real.arsinh (Real.tan (lat * (Real.pi / 180)))| < Real.pi := by
  have hpi := Real.pi_pos
  have hmem : lat * (Real.pi / 180) ∈ Set.Ioo (-(Real.pi / 2)) (Real.pi / 2) := by
    simp only [Set.mem_Ioo]
    constructor <;> nlinarith
  have h85mem : 85 * (Real.pi / 180) ∈ Set.Ioo (-(Real.pi / 2)) (Real.pi / 2) := by
    simp only [Set.mem_Ioo]
    constructor <;> nlinarith
  have hneg85mem : -(85 * (Real.pi / 180)) ∈ Set.Ioo (-(Real.pi / 2)) (Real.pi / 2) := by
    simp only [Set.mem_Ioo]
    constructor <;> nlinarith
  have hub : Real.tan (lat * (Real.pi / 180)) ≤ Real.tan (85 * (Real.pi / 180)) := by
    apply Real.strictMonoOn_tan.monotoneOn hmem h85mem
    nlinarith
  have hlb : Real.tan (-(85 * (Real.pi / 180))) ≤ Real.tan (lat * (Real.pi / 180)) := by
    apply Real.strictMonoOn_tan.monotoneOn hneg85mem hmem
    nlinarith
  rw [Real.tan_neg] at hlb
  have hS := tan_85_deg_lt_sinh_pi
  rw [abs_lt]
  constructor
  · have hars : Real.arsinh (-Real.sinh Real.pi) < Real.arsinh (Real.tan (lat * (Real.pi / 180))) := by
      apply Real.arsinh_lt_arsinh.mpr
      nlinarith
    rwa [← Real.sinh_neg, Real.arsinh_sinh] at hars
  · have hars : Real.arsinh (Real.tan (lat * (Real.pi / 180))) < Real.arsinh (Real.sinh Real.pi) := by
      apply Real.arsinh_lt_arsinh.mpr
      nlinarith
    rwa [Real.arsinh_sinh] at hars

/-- C9 counterexample: the position with lon = 180 (and lat = 0) lies in the
claimed domain, but its tile x index at zoom 0 is 1, not below 2^0. -/
theorem tile_id_range_counterexample :
    ((Position.from_lon_lat 180 0).tile_id 0 256).x = 1 ∧
    ¬(((Position.from_lon_lat 180 0).tile_id 0 256).x < 2 ^ 0) := by
  have hpi := Real.pi_ne_zero
  have hx : ((Position.from_lon_lat 180 0).tile_id 0 256).x = 1 := by
    simp only [Position.tile_id, mercator_normalized, toRadians, Position.from_lon_lat]
    rw [show (256 : ℕ) / TILE_SIZE = 1 from rfl, nat_log2_one, Nat.sub_zero]
    have harg : (1 + (180 : ℝ) * (Real.pi / 180) / Real.pi) / 2 * ((2 ^ (0 : ℕ) : ℕ) : ℝ) = 1 := by
      field_simp
    rw [harg]
    exact f64ToU32_floor_eq (by norm_num) (by norm_num) (by norm_num)
  exact ⟨hx, by rw [hx]; norm_num⟩

/-- C9 amended: for latitude in [-85, 85], longitude in [-180, 180) and zoom
in [0, 19], the tile indices satisfy x < 2^z and y < 2^z (they are
nonnegative by construction). -/
theorem tile_id_range (p : Position) (z : ℕ) (_hz : z ≤ 19)
    (hlat1 : -85 ≤ p.lat) (hlat2 : p.lat ≤ 85)
    (hlon1 : -180 ≤ p.lon) (hlon2 : p.lon < 180) :
    (p.tile_id z 256).x < 2 ^ z ∧ (p.tile_id z 256).y < 2 ^ z := by
  obtain ⟨lon, lat⟩ := p
  simp only [Position.lat, Position.lon] at hlat1 hlat2 hlon1 hlon2
  have hpi := Real.pi_pos
  have habs := abs_arsinh_tan_lt_pi hlat1 hlat2
  rw [abs_lt] at habs
  have h2z : (0 : ℝ) < ((2 ^ z : ℕ) : ℝ) := by positivity
  have h2zpos : 0 < 2 ^ z := Nat.pos_pow_of_pos z (by norm_num)
  simp only [Position.tile_id, mercator_normalized, toRadians]
  rw [show (256 : ℕ) / TILE_SIZE = 1 from rfl, nat_log2_one, Nat.sub_zero]
  constructor
  · apply f64ToU32_lt h2zpos
    have hxn : (1 + lon * (Real.pi / 180) / Real.pi) / 2 < 1 := by
      have hdiv : lon * (Real.pi / 180) / Real.pi = lon / 180 := by
        field_simp
        ring
      rw [hdiv]
      linarith
    calc (1 + lon * (Real.pi / 180) / Real.pi) / 2 * ((2 ^ z : ℕ) : ℝ)
        < 1 * ((2 ^ z : ℕ) : ℝ) := by
          exact mul_lt_mul_of_pos_right hxn h2z
      _ = ((2 ^ z : ℕ) : ℝ) := one_mul _
  · apply f64ToU32_lt h2zpos
    have hyn : (1 - Real.arsinh (Real.tan (lat * (Real.pi / 180))) / Real.pi) / 2 < 1 := by
      have hgt : -1 < Real.arsinh (Real.tan (lat * (Real.pi / 180))) / Real.pi := by
        rw [neg_lt, ← neg_div, div_lt_one hpi]
        linarith [habs.1]
      linarith
    calc (1 - Real.arsinh (Real.tan (lat * (Real.pi / 180))) / Real.pi) / 2 * ((2 ^ z : ℕ) : ℝ)
        < 1 * ((2 ^ z : ℕ) : ℝ) := by
          exact mul_lt_mul_of_pos_right hyn h2z
      _ = ((2 ^ z : ℕ) : ℝ) := one_mul _

/-- Witness for the amended C9 theorem at the origin. -/
theorem tile_id_range_witness :
    ((Position.from_lat_lon 0 0).tile_id 0 256).x < 2 ^ 0 ∧
    ((Position.from_lat_lon 0 0).tile_id 0 256).y < 2 ^ 0 :=
  tile_id_range (Position.from_lat_lon 0 0) 0 (by norm_num)
    (by norm_num [Position.from_lat_lon]) (by norm_num [Position.from_lat_lon])
    (by norm_num [Position.from_lat_lon]) (by norm_num [Position.from_lat_lon])


/-- helper: degree-11 Taylor partial sums approximate sin and cos to
within `x^12 * 13/5748019200` on `[-1, 1]` (from the complex exponential
remainder bound at order 12). -/
theorem sin_cos_taylor_bound (x : ℝ) (hx : |x| ≤ 1) :
    |Real.cos x - (1 - x ^ 2 / 2 + x ^ 4 / 24 - x ^ 6 / 720 + x ^ 8 / 40320 - x ^ 10 / 3628800)| ≤
      x ^ 12 * (13 / 5748019200) ∧
    |Real.sin x - (x - x ^ 3 / 6 + x ^ 5 / 120 - x ^ 7 / 5040 + x ^ 9 / 362880 - x ^ 11 / 39916800)| ≤
      x ^ 12 * (13 / 5748019200) := by
  have habs : Complex.abs ((x : ℂ) * Complex.I) ≤ 1 := by
    rw [map_mul, Complex.abs_ofReal, Complex.abs_I, mul_one]
    exact hx
  have hb := Complex.exp_bound habs (by norm_num : 0 < 12)
  have hI2 : Complex.I ^ 2 = -1 := Complex.I_sq
  have hI3 : Complex.I ^ 3 = -Complex.I := by
    rw [pow_succ, hI2]
    ring
  have hI4 : Complex.I ^ 4 = 1 := by
    rw [show (4 : ℕ) = 2 * 2 from rfl, pow_mul, hI2]
    norm_num
  have hI5 : Complex.I ^ 5 = Complex.I := by
    rw [pow_succ, hI4, one_mul]
  have hI6 : Complex.I ^ 6 = -1 := by
    rw [show (6 : ℕ) = 4 + 2 from rfl, pow_add, hI4, hI2, one_mul]
  have hI7 : Complex.I ^ 7 = -Complex.I := by
    rw [show (7 : ℕ) = 4 + 3 from rfl, pow_add, hI4, hI3, one_mul]
  have hI8 : Complex.I ^ 8 = 1 := by
    rw [show (8 : ℕ) = 4 + 4 from rfl, pow_add, hI4, one_mul]
  have hI9 : Complex.I ^ 9 = Complex.I := by
    rw [pow_succ, hI8, one_mul]
  have hI10 : Complex.I ^ 10 = -1 := by
    rw [show (10 : ℕ) = 8 + 2 from rfl, pow_add, hI8, hI2, one_mul]
  have hI11 : Complex.I ^ 11 = -Complex.I := by
    rw [show (11 : ℕ) = 8 + 3 from rfl, pow_add, hI8, hI3, one_mul]
  have hsum : (∑ m ∈ Finset.range 12, ((x : ℂ) * Complex.I) ^ m / m.factorial) =
      ((1 - x ^ 2 / 2 + x ^ 4 / 24 - x ^ 6 / 720 + x ^ 8 / 40320 - x ^ 10 / 3628800 : ℝ) : ℂ) +
      ((x - x ^ 3 / 6 + x ^ 5 / 120 - x ^ 7 / 5040 + x ^ 9 / 362880 - x ^ 11 / 39916800 : ℝ) : ℂ) *
        Complex.I := by
    simp only [Finset.sum_range_succ, Finset.sum_range_zero, zero_add, mul_pow,
      pow_zero, pow_one, hI2, hI3, hI4, hI5, hI6, hI7, hI8, hI9, hI10, hI11,
      show Nat.factorial 0 = 1 from rfl, show Nat.factorial 1 = 1 from rfl,
      show Nat.factorial 2 = 2 from rfl, show Nat.factorial 3 = 6 from rfl,
      show Nat.factorial 4 = 24 from rfl, show Nat.factorial 5 = 120 from rfl,
      show Nat.factorial 6 = 720 from rfl, show Nat.factorial 7 = 5040 from rfl,
      show Nat.factorial 8 = 40320 from rfl, show Nat.factorial 9 = 362880 from rfl,
      show Nat.factorial 10 = 3628800 from rfl, show Nat.factorial 11 = 39916800 from rfl]
    push_cast
    ring
  have hexp : Complex.exp ((x : ℂ) * Complex.I) =
      ((Real.cos x : ℝ) : ℂ) + ((Real.sin x : ℝ) : ℂ) * Complex.I := by
    rw [Complex.exp_mul_I, Complex.ofReal_cos, Complex.ofReal_sin]
  rw [hexp, hsum] at hb
  have hw : ((Real.cos x : ℝ) : ℂ) + ((Real.sin x : ℝ) : ℂ) * Complex.I -
      (((1 - x ^ 2 / 2 + x ^ 4 / 24 - x ^ 6 / 720 + x ^ 8 / 40320 - x ^ 10 / 3628800 : ℝ) : ℂ) +
       ((x - x ^ 3 / 6 + x ^ 5 / 120 - x ^ 7 / 5040 + x ^ 9 / 362880 - x ^ 11 / 39916800 : ℝ) : ℂ) *
         Complex.I) =
      ((Real.cos x - (1 - x ^ 2 / 2 + x ^ 4 / 24 - x ^ 6 / 720 + x ^ 8 / 40320 - x ^ 10 / 3628800) : ℝ) : ℂ) +
      ((Real.sin x - (x - x ^ 3 / 6 + x ^ 5 / 120 - x ^ 7 / 5040 + x ^ 9 / 362880 - x ^ 11 / 39916800) : ℝ) : ℂ) *
        Complex.I := by
    push_cast
    ring
  rw [hw] at hb
  have hrhs : Complex.abs ((x : ℂ) * Complex.I) ^ 12 *
      ((Nat.succ 12 : ℝ) * ((Nat.factorial 12 : ℝ) * (12 : ℝ))⁻¹) = x ^ 12 * (13 / 5748019200) := by
    rw [map_mul, Complex.abs_ofReal, Complex.abs_I, mul_one]
    rw [show ((Nat.factorial 12 : ℝ)) = 479001600 by norm_num [Nat.factorial]]
    rw [show |x| ^ 12 = x ^ 12 from by
      rw [← abs_pow]
      exact abs_of_nonneg (by positivity)]
    norm_num
  have hre := Complex.abs_re_le_abs
    (((Real.cos x - (1 - x ^ 2 / 2 + x ^ 4 / 24 - x ^ 6 / 720 + x ^ 8 / 40320 - x ^ 10 / 3628800) : ℝ) : ℂ) +
     ((Real.sin x - (x - x ^ 3 / 6 + x ^ 5 / 120 - x ^ 7 / 5040 + x ^ 9 / 362880 - x ^ 11 / 39916800) : ℝ) : ℂ) *
       Complex.I)
  have him := Complex.abs_im_le_abs
    (((Real.cos x - (1 - x ^ 2 / 2 + x ^ 4 / 24 - x ^ 6 / 720 + x ^ 8 / 40320 - x ^ 10 / 3628800) : ℝ) : ℂ) +
     ((Real.sin x - (x - x ^ 3 / 6 + x ^ 5 / 120 - x ^ 7 / 5040 + x ^ 9 / 362880 - x ^ 11 / 39916800) : ℝ) : ℂ) *
       Complex.I)
  simp only [Complex.add_re, Complex.add_im, Complex.ofReal_re, Complex.ofReal_im,
    Complex.mul_re, Complex.mul_im, Complex.I_re, Complex.I_im, mul_zero, mul_one,
    zero_mul, sub_zero, zero_add, add_zero, zero_sub, neg_zero] at hre him
  constructor
  · calc |Real.cos x - (1 - x ^ 2 / 2 + x ^ 4 / 24 - x ^ 6 / 720 + x ^ 8 / 40320 - x ^ 10 / 3628800)| ≤ _ := hre
      _ ≤ x ^ 12 * (13 / 5748019200) := by rw [← hrhs]; exact hb
  · calc |Real.sin x - (x - x ^ 3 / 6 + x ^ 5 / 120 - x ^ 7 / 5040 + x ^ 9 / 362880 - x ^ 11 / 39916800)| ≤ _ := him
      _ ≤ x ^ 12 * (13 / 5748019200) := by rw [← hrhs]; exact hb

/-- helper: degree-9 Taylor partial sum approximates exp to within
`|x|^10 * 11/36288000` on `[-1, 1]`. -/
theorem exp_taylor_bound10 (x : ℝ) (hx : |x| ≤ 1) :
    |Real.exp x - (1 + x + x ^ 2 / 2 + x ^ 3 / 6 + x ^ 4 / 24 + x ^ 5 / 120 + x ^ 6 / 720 +
        x ^ 7 / 5040 + x ^ 8 / 40320 + x ^ 9 / 362880)| ≤ |x| ^ 10 * (11 / 36288000) := by
  have hb := Real.exp_bound hx (by norm_num : 0 < 10)
  have hsum : (∑ m ∈ Finset.range 10, x ^ m / m.factorial) =
      1 + x + x ^ 2 / 2 + x ^ 3 / 6 + x ^ 4 / 24 + x ^ 5 / 120 + x ^ 6 / 720 + x ^ 7 / 5040 +
        x ^ 8 / 40320 + x ^ 9 / 362880 := by
    simp only [Finset.sum_range_succ, Finset.sum_range_zero, zero_add, pow_zero, pow_one,
      show Nat.factorial 0 = 1 from rfl, show Nat.factorial 1 = 1 from rfl,
      show Nat.factorial 2 = 2 from rfl, show Nat.factorial 3 = 6 from rfl,
      show Nat.factorial 4 = 24 from rfl, show Nat.factorial 5 = 120 from rfl,
      show Nat.factorial 6 = 720 from rfl, show Nat.factorial 7 = 5040 from rfl,
      show Nat.factorial 8 = 40320 from rfl, show Nat.factorial 9 = 362880 from rfl]
    push_cast
    ring
  rw [hsum] at hb
  have hc : ((Nat.succ 10 : ℝ) / ((Nat.factorial 10 : ℝ) * (10 : ℝ))) = 11 / 36288000 := by
    rw [show (Nat.factorial 10 : ℕ) = 3628800 from rfl]
    norm_num
  calc |Real.exp x - (1 + x + x ^ 2 / 2 + x ^ 3 / 6 + x ^ 4 / 24 + x ^ 5 / 120 + x ^ 6 / 720 +
        x ^ 7 / 5040 + x ^ 8 / 40320 + x ^ 9 / 362880)| ≤
      |x| ^ 10 * ((Nat.succ 10 : ℝ) / ((Nat.factorial 10 : ℝ) * (10 : ℝ))) := hb
    _ = |x| ^ 10 * (11 / 36288000) := by rw [hc]

/-- helper: rational bracket around the test latitude in radians. -/
theorem theta_bounds :
    (0.912191097 : ℝ) < 52.26470 * (Real.pi / 180) ∧
    52.26470 * (Real.pi / 180) < 0.912191098 := by
  constructor
  · have h := Real.pi_gt_d20
    linarith
  · have h := Real.pi_lt_d20
    linarith

set_option maxHeartbeats 2000000 in
/-- helper: rational brackets for sin and cos at the test latitude. -/
theorem sin_cos_theta_bounds :
    (0.790846617 : ℝ) < Real.sin (52.26470 * (Real.pi / 180)) ∧
    Real.sin (52.26470 * (Real.pi / 180)) < 0.790846623 ∧
    (0.612014395 : ℝ) < Real.cos (52.26470 * (Real.pi / 180)) ∧
    Real.cos (52.26470 * (Real.pi / 180)) < 0.612014400 := by
  obtain ⟨ht1, ht2⟩ := theta_bounds
  have hpi3 : (3 : ℝ) < Real.pi := Real.pi_gt_three
  have hlo := sin_cos_taylor_bound 0.912191097 (by rw [abs_of_nonneg] <;> norm_num)
  have hhi := sin_cos_taylor_bound 0.912191098 (by rw [abs_of_nonneg] <;> norm_num)
  obtain ⟨hcos_lo, hsin_lo⟩ := hlo
  obtain ⟨hcos_hi, hsin_hi⟩ := hhi
  rw [abs_le] at hcos_lo hsin_lo hcos_hi hsin_hi
  have hs1 : (0.790846617 : ℝ) < Real.sin 0.912191097 := by linarith [hsin_lo.1]
  have hs2 : Real.sin 0.912191098 < 0.790846623 := by linarith [hsin_hi.2]
  have hc1 : (0.612014395 : ℝ) < Real.cos 0.912191098 := by linarith [hcos_hi.1]
  have hc2 : Real.cos 0.912191097 < 0.612014400 := by linarith [hcos_lo.2]
  have hmono_s : Real.sin 0.912191097 < Real.sin (52.26470 * (Real.pi / 180)) :=
    Real.sin_lt_sin_of_lt_of_le_pi_div_two (by linarith) (by linarith) ht1
  have hmono_s2 : Real.sin (52.26470 * (Real.pi / 180)) < Real.sin 0.912191098 :=
    Real.sin_lt_sin_of_lt_of_le_pi_div_two (by linarith) (by linarith) ht2
  have hmono_c : Real.cos (52.26470 * (Real.pi / 180)) < Real.cos 0.912191097 :=
    Real.cos_lt_cos_of_nonneg_of_le_pi (by norm_num) (by linarith) ht1
  have hmono_c2 : Real.cos 0.912191098 < Real.cos (52.26470 * (Real.pi / 180)) :=
    Real.cos_lt_cos_of_nonneg_of_le_pi (by positivity) (by linarith) ht2
  exact ⟨by linarith, by linarith, by linarith, by linarith⟩

/-- helper: rational bracket for tan at the test latitude. -/
theorem tan_theta_bounds :
    (1.2922 : ℝ) < Real.tan (52.26470 * (Real.pi / 180)) ∧
    Real.tan (52.26470 * (Real.pi / 180)) < 1.292205 := by
  obtain ⟨hs1, hs2, hc1, hc2⟩ := sin_cos_theta_bounds
  have hcpos : (0 : ℝ) < Real.cos (52.26470 * (Real.pi / 180)) := by linarith
  constructor
  · rw [Real.tan_eq_sin_div_cos, lt_div_iff₀ hcpos]
    nlinarith
  · rw [Real.tan_eq_sin_div_cos, div_lt_iff₀ hcpos]
    nlinarith

set_option maxHeartbeats 2000000 in
/-- helper: upper bound for sinh at the rational point just above π·179183/524288. -/
theorem sinh_A2_le : Real.sinh (3.141593 * (179183 / 524288) : ℝ) ≤ 1.2922 := by
  have hx : |(3.141593 * (179183 / 524288) / 2 : ℝ)| ≤ 1 := by
    rw [abs_of_nonneg] <;> norm_num
  have hb := exp_taylor_bound10 (3.141593 * (179183 / 524288) / 2) hx
  rw [abs_of_nonneg (show (0 : ℝ) ≤ 3.141593 * (179183 / 524288) / 2 by norm_num), abs_le] at hb
  have hU : Real.exp (3.141593 * (179183 / 524288) / 2) ≤ 1.71059695 := by linarith [hb.2]
  have hpos := Real.exp_pos (3.141593 * (179183 / 524288) / 2 : ℝ)
  have hsq : Real.exp (3.141593 * (179183 / 524288) : ℝ) =
      Real.exp (3.141593 * (179183 / 524288) / 2) ^ 2 := by
    rw [sq, ← Real.exp_add]
    norm_num
  have hEub : Real.exp (3.141593 * (179183 / 524288) : ℝ) ≤ 1.71059695 ^ 2 := by
    rw [hsq]
    exact pow_le_pow_left₀ hpos.le hU 2
  have hElb := Real.exp_pos (3.141593 * (179183 / 524288) : ℝ)
  have hinv : ((1.71059695 : ℝ) ^ 2)⁻¹ ≤ (Real.exp (3.141593 * (179183 / 524288) : ℝ))⁻¹ :=
    inv_anti₀ hElb hEub
  rw [Real.sinh_eq, Real.exp_neg]
  have hnum : (((1.71059695 : ℝ) ^ 2) - ((1.71059695 : ℝ) ^ 2)⁻¹) / 2 ≤ 1.2922 := by norm_num
  linarith

set_option maxHeartbeats 2000000 in
/-- helper: lower bound for sinh at the rational point just below π·179184/524288. -/
theorem sinh_B2_ge : (1.292205 : ℝ) ≤ Real.sinh (3.141592 * (179184 / 524288) : ℝ) := by
  have hx : |(3.141592 * (179184 / 524288) / 2 : ℝ)| ≤ 1 := by
    rw [abs_of_nonneg] <;> norm_num
  have hb := exp_taylor_bound10 (3.141592 * (179184 / 524288) / 2) hx
  rw [abs_of_nonneg (show (0 : ℝ) ≤ 3.141592 * (179184 / 524288) / 2 by norm_num), abs_le] at hb
  have hL : (1.710601779 : ℝ) ≤ Real.exp (3.141592 * (179184 / 524288) / 2) := by linarith [hb.1]
  have hsq : Real.exp (3.141592 * (179184 / 524288) : ℝ) =
      Real.exp (3.141592 * (179184 / 524288) / 2) ^ 2 := by
    rw [sq, ← Real.exp_add]
    norm_num
  have hElb2 : (1.710601779 : ℝ) ^ 2 ≤ Real.exp (3.141592 * (179184 / 524288) : ℝ) := by
    rw [hsq]
    exact pow_le_pow_left₀ (by norm_num) hL 2
  have hpos := Real.exp_pos (3.141592 * (179184 / 524288) : ℝ)
  have hinv : (Real.exp (3.141592 * (179184 / 524288) : ℝ))⁻¹ ≤ (((1.710601779 : ℝ)) ^ 2)⁻¹ :=
    inv_anti₀ (by norm_num) hElb2
  rw [Real.sinh_eq, Real.exp_neg]
  have hnum : (1.292205 : ℝ) ≤ (((1.710601779 : ℝ) ^ 2) - (((1.710601779 : ℝ)) ^ 2)⁻¹) / 2 := by
    norm_num
  linarith

/-- helper: the Mercator y-coordinate of the test latitude, `arsinh (tan θ)`,
lies strictly between π·179183/524288 and π·179184/524288. -/
theorem mercator_t_bounds :
    Real.pi * (179183 / 524288) < Real.arsinh (Real.tan (52.26470 * (Real.pi / 180))) ∧
    Real.arsinh (Real.tan (52.26470 * (Real.pi / 180))) < Real.pi * (179184 / 524288) := by
  obtain ⟨htan1, htan2⟩ := tan_theta_bounds
  have hpi6 : (3.141592 : ℝ) < Real.pi := Real.pi_gt_d6
  have hpi6' : Real.pi < 3.141593 := Real.pi_lt_d6
  constructor
  · have h1 : Real.sinh (3.141593 * (179183 / 524288) : ℝ) <
        Real.tan (52.26470 * (Real.pi / 180)) := by linarith [sinh_A2_le]
    have h2 := Real.arsinh_lt_arsinh.mpr h1
    rw [Real.arsinh_sinh] at h2
    linarith
  · have h1 : Real.tan (52.26470 * (Real.pi / 180)) <
        Real.sinh (3.141592 * (179184 / 524288) : ℝ) := by linarith [sinh_B2_ge]
    have h2 := Real.arsinh_lt_arsinh.mpr h1
    rw [Real.arsinh_sinh] at h2
    linarith

set_option maxHeartbeats 1000000 in
/-- C3: the concrete projection scenario from the repository test:
(lon 21.00027, lat 52.26470) at zoom 20 yields tile (585455, 345104, 20)
with 256-pixel tiles and tile (292727, 172552, 19) with 512-pixel tiles,
and `TileId.project` is exactly `(x * tile_size, y * tile_size)`. -/
theorem concrete_projection_scenario :
    (Position.from_lon_lat 21.00027 52.26470).tile_id 20 256 = ⟨585455, 345104, 20⟩ ∧
    (Position.from_lon_lat 21.00027 52.26470).tile_id 20 512 = ⟨292727, 172552, 19⟩ ∧
    TileId.project ⟨585455, 345104, 20⟩ 256 = ⟨585455 * 256, 345104 * 256⟩ := by
  obtain ⟨ht1, ht2⟩ := mercator_t_bounds
  have hpi := Real.pi_pos
  have htq1 : (179183 / 524288 : ℝ) <
      Real.arsinh (Real.tan (52.26470 * (Real.pi / 180))) / Real.pi := by
    rw [lt_div_iff₀ hpi]
    linarith
  have htq2 : Real.arsinh (Real.tan (52.26470 * (Real.pi / 180))) / Real.pi <
      179184 / 524288 := by
    rw [div_lt_iff₀ hpi]
    linarith
  have hlon : (21.00027 : ℝ) * (Real.pi / 180) / Real.pi = 21.00027 / 180 := by
    field_simp
    ring
  refine ⟨?_, ?_, ?_⟩
  · simp only [Position.tile_id, mercator_normalized, toRadians, Position.from_lon_lat]
    rw [show (256 : ℕ) / TILE_SIZE = 1 from rfl, nat_log2_one, Nat.sub_zero]
    rw [TileId.mk.injEq]
    refine ⟨?_, ?_, rfl⟩
    · rw [hlon, show ((2 ^ 20 : ℕ) : ℝ) = 1048576 by norm_num]
      exact f64ToU32_floor_eq (by norm_num) (by norm_num) (by norm_num)
    · rw [show ((2 ^ 20 : ℕ) : ℝ) = 1048576 by norm_num]
      apply f64ToU32_floor_eq _ _ (by norm_num)
      · push_cast
        linarith
      · push_cast
        linarith
  · simp only [Position.tile_id, mercator_normalized, toRadians, Position.from_lon_lat]
    rw [show (512 : ℕ) / TILE_SIZE = 2 from rfl, nat_log2_two, show (20 - 1 : ℕ) = 19 from rfl]
    rw [TileId.mk.injEq]
    refine ⟨?_, ?_, rfl⟩
    · rw [hlon, show ((2 ^ 19 : ℕ) : ℝ) = 524288 by norm_num]
      exact f64ToU32_floor_eq (by norm_num) (by norm_num) (by norm_num)
    · rw [show ((2 ^ 19 : ℕ) : ℝ) = 524288 by norm_num]
      apply f64ToU32_floor_eq _ _ (by norm_num)
      · push_cast
        linarith
      · push_cast
        linarith
  · simp only [TileId.project, Pixels.mk.injEq]
    constructor <;> norm_num

end Walkers
